import Mathlib

/-!
Verification development for the SINOE notification-delivery subsystem.

Shallow embedding of the delivery-guarantee layer of the repository:
the DynamoDB record store client (`DynamoDBManager` — change detection,
delivery ledger, unsent query), the WhatsApp delivery orchestration
(`WhatsAppManager.sendPersonalizedNotifications`, `sendMessage` retry,
message formatting) and the top-level orchestrator
(`EthicalScraper.sendNotifications` with its email fallback).

Store operations are modelled as pure state transitions on a list of
items; network failures are supplied by explicit oracles; traces of
externally visible actions (primary-channel sends, ledger marks,
fallback-channel sends) are recorded as event lists.  The MD5 digest of
`generateContentHash` is modelled by the digested content string itself
(the code only ever compares digests for equality).
-/

namespace Sinoe

/-- An incoming scraped notification record (the scraper interface payload). -/
structure Notification where
  numeroExpediente : String
  numeroNotificacion : String
  estado : String
  sumilla : String
  oficinaJudicial : String
  fecha : String
  deriving Repr, DecidableEq

/-- One per-recipient delivery attempt inside an item's `envios` list
(`DynamoDBManager.markUserAsNotified` writes `user/enviado/fechaEnvio/procesado`). -/
structure Envio where
  user : String
  enviado : Bool
  fechaEnvio : String
  procesado : Bool
  deriving Repr, DecidableEq

/-- A stored DynamoDB item of table `DocumentosSinoe` as written by
`DynamoDBManager.saveNotification`.  `version` is optional because the
conditional update of `markUserAsNotified` distinguishes an absent
`version` attribute (`attribute_not_exists`) from a present one. -/
structure Item where
  numeroExpediente : String
  numeroNotificacion : String
  estado : String
  sumilla : String
  oficinaJudicial : String
  fecha : String
  fechaExtraccion : String
  ultimaActualizacion : String
  fuente : String
  fechaCreacionItem : String
  fechaCreacion : String
  version : Option Nat
  envios : List Envio
  hashContenido : String
  deriving Repr, DecidableEq

/-- The record store: the items of the `DocumentosSinoe` table. -/
abbrev Store := List Item

/-- Key match on the composite natural key `(numeroExpediente, numeroNotificacion)`. -/
def sameKey (a : Item) (exp noti : String) : Bool :=
  a.numeroExpediente == exp && a.numeroNotificacion == noti

/-- `DynamoDBManager.getNotification`: point read by composite key. -/
def getNotification (store : Store) (exp noti : String) : Option Item :=
  store.find? (fun i => sameKey i exp noti)

/-- A DynamoDB `put`/upserting `update`: replaces the item with the same
key if present (keys are unique in a table), appends it otherwise. -/
def putItem (store : Store) (item : Item) : Store :=
  match store with
  | [] => [item]
  | a :: rest =>
      if sameKey a item.numeroExpediente item.numeroNotificacion then item :: rest
      else a :: putItem rest item

/-- `DynamoDBManager.generateContentHash`: fingerprint over
`estado-sumilla-oficinaJudicial-fecha`.  The MD5 digest is modelled by
the digested content string (the code only compares digests for equality). -/
def generateContentHash (n : Notification) : String :=
  n.estado ++ "-" ++ n.sumilla ++ "-" ++ n.oficinaJudicial ++ "-" ++ n.fecha

/-- `DynamoDBManager.hasSignificantChanges`: field-wise comparison of
`estado`, `sumilla`, `oficinaJudicial`, `fecha`. -/
def hasSignificantChanges (existingItem newItem : Item) : Bool :=
  existingItem.estado != newItem.estado ||
  existingItem.sumilla != newItem.sumilla ||
  existingItem.oficinaJudicial != newItem.oficinaJudicial ||
  existingItem.fecha != newItem.fecha

/-- The fresh item built at the top of `DynamoDBManager.saveNotification`
(before the exists/absent branch adjusts it). -/
def mkItem (n : Notification) (timestamp currentDate : String)
    (sourceUrl : Option String) : Item :=
  { numeroExpediente := n.numeroExpediente
    numeroNotificacion := n.numeroNotificacion
    estado := n.estado
    sumilla := n.sumilla
    oficinaJudicial := n.oficinaJudicial
    fecha := n.fecha
    fechaExtraccion := timestamp
    ultimaActualizacion := timestamp
    fuente := sourceUrl.getD "SINOE"
    fechaCreacionItem := currentDate
    fechaCreacion := ""
    version := some 0
    envios := []
    hashContenido := generateContentHash n }

/-- Return value of `saveNotification`. -/
structure SaveResult where
  success : Bool
  isNew : Bool
  error : Option String
  deriving Repr, DecidableEq

/-- `DynamoDBManager.saveNotification`.  `putOk` models whether the
store write succeeds (a thrown AWS error is the caught failure path).
The `new Date()` timestamps are the `timestamp`/`currentDate` parameters. -/
def saveNotification (store : Store) (putOk : Bool) (n : Notification)
    (timestamp currentDate : String) (sourceUrl : Option String) :
    Store × SaveResult :=
  let item := mkItem n timestamp currentDate sourceUrl
  match getNotification store n.numeroExpediente n.numeroNotificacion with
  | some existingItem =>
      if hasSignificantChanges existingItem item then
        let item1 := { item with
          fechaCreacion := existingItem.fechaCreacion
          fechaCreacionItem := existingItem.fechaCreacionItem
          version := some ((existingItem.version).getD 0)
          envios := existingItem.envios
          ultimaActualizacion := timestamp }
        let item2 :=
          if existingItem.hashContenido != "" && item1.hashContenido != "" &&
             existingItem.hashContenido != item1.hashContenido then
            { item1 with envios := [], version := some 0 }
          else item1
        if putOk then (putItem store item2, ⟨true, false, none⟩)
        else (store, ⟨false, false, some "put failed"⟩)
      else
        (store, ⟨true, false, none⟩)
  | none =>
      let item1 := { item with fechaCreacion := timestamp }
      if putOk then (putItem store item1, ⟨true, true, none⟩)
      else (store, ⟨false, false, some "put failed"⟩)

/-- Counters returned by `processBatch`/`saveNotifications`. -/
structure BatchResults where
  success : Nat
  failed : Nat
  errors : List String
  newRecords : Nat
  updatedRecords : Nat
  deriving Repr, DecidableEq

def emptyBatchResults : BatchResults := ⟨0, 0, [], 0, 0⟩

/-- One step of the `processBatch` loop body. -/
def processOne (putOk : Notification → Bool) (timestamp currentDate : String)
    (sourceUrl : Option String) (acc : Store × BatchResults) (n : Notification) :
    Store × BatchResults :=
  let r := saveNotification acc.1 (putOk n) n timestamp currentDate sourceUrl
  let res := acc.2
  if r.2.success then
    if r.2.isNew then
      (r.1, { res with success := res.success + 1, newRecords := res.newRecords + 1 })
    else
      (r.1, { res with success := res.success + 1, updatedRecords := res.updatedRecords + 1 })
  else
    (r.1, { res with failed := res.failed + 1, errors := res.errors ++ [r.2.error.getD ""] })

/-- `DynamoDBManager.processBatch`: per-record save inside a try/catch,
so one record's failure never stops the loop. -/
def processBatch (store : Store) (putOk : Notification → Bool)
    (notifs : List Notification) (timestamp currentDate : String)
    (sourceUrl : Option String) : Store × BatchResults :=
  notifs.foldl (processOne putOk timestamp currentDate sourceUrl) (store, emptyBatchResults)

/-- The `i += batchSize` slicing loop of `saveNotifications` (DynamoDB
batch limit 25). -/
def chunk25 {α : Type} : List α → List (List α)
  | [] => []
  | x :: xs => ((x :: xs).take 25) :: chunk25 ((x :: xs).drop 25)
  termination_by l => l.length
  decreasing_by simp [List.length_drop]; omega

/-- Sum of two `BatchResults` (the `results.success += ...` accumulation). -/
def addResults (a b : BatchResults) : BatchResults :=
  ⟨a.success + b.success, a.failed + b.failed, a.errors ++ b.errors,
   a.newRecords + b.newRecords, a.updatedRecords + b.updatedRecords⟩

/-- `DynamoDBManager.saveNotifications` on the initialized path: chunk the
input into batches of 25 and accumulate each batch's counters. -/
def saveNotifications (store : Store) (putOk : Notification → Bool)
    (notifs : List Notification) (timestamp currentDate : String)
    (sourceUrl : Option String) : Store × BatchResults :=
  if notifs.isEmpty then (store, emptyBatchResults)
  else
    (chunk25 notifs).foldl
      (fun acc batch =>
        let r := processBatch acc.1 putOk batch timestamp currentDate sourceUrl
        (r.1, addResults acc.2 r.2))
      (store, emptyBatchResults)

/-- `DynamoDBManager.getTodaysNotificationsForUser`: scan items created
today, keep those whose first `envios` entry for this user (if any) has
`enviado` false.  (`envios` is always a list in the model, so the
`!Array.isArray` guard of the code is vacuous.) -/
def getTodaysNotificationsForUser (store : Store) (userPhone currentDate : String) :
    List Item :=
  let allItems := store.filter (fun i => i.fechaCreacionItem == currentDate)
  allItems.filter (fun item =>
    match item.envios.find? (fun e => e.user == userPhone) with
    | none => true
    | some userEnvio => !userEnvio.enviado)

/-- The `nuevoEnvio` object built by `markUserAsNotified`. -/
def nuevoEnvio (phoneString timestamp : String) : Envio :=
  { user := phoneString, enviado := true, fechaEnvio := timestamp, procesado := true }

/-- The in-memory merge/dedupe step of `markUserAsNotified`: replace the
entry found by `findIndex` (the spread merge overwrites every field of
the schema) or append a new one. -/
def upsertEnvio (envios : List Envio) (phoneString timestamp : String) : List Envio :=
  match envios.findIdx? (fun x => x.user == phoneString) with
  | some idx => envios.set idx (nuevoEnvio phoneString timestamp)
  | none => envios ++ [nuevoEnvio phoneString timestamp]

/-- `DynamoDBManager.markUserAsNotified`.  The projection read happens
against `readStore`; the conditional update runs against `writeStore`
(they differ exactly when a concurrent writer intervened).  An update on
a missing key upserts the item, DynamoDB-style, with absent attributes
modelled as defaults. -/
def markUserAsNotified (readStore writeStore : Store)
    (exp noti userPhone timestamp : String) : Store × Bool :=
  let readItem := getNotification readStore exp noti
  let prevVersion := (readItem.bind (·.version)).getD 0
  let envios := (readItem.map (·.envios)).getD []
  let newEnvios := upsertEnvio envios userPhone timestamp
  match getNotification writeStore exp noti with
  | some cur =>
      if cur.version = none ∨ cur.version = some prevVersion then
        (putItem writeStore
          { cur with envios := newEnvios,
                     version := some ((cur.version).getD 0 + 1),
                     ultimaActualizacion := timestamp }, true)
      else (writeStore, false)
  | none =>
      (putItem writeStore
        { numeroExpediente := exp, numeroNotificacion := noti,
          estado := "", sumilla := "", oficinaJudicial := "", fecha := "",
          fechaExtraccion := "", ultimaActualizacion := timestamp, fuente := "",
          fechaCreacionItem := "", fechaCreacion := "",
          version := some 1, envios := newEnvios, hashContenido := "" }, true)

/-! ## WhatsApp delivery layer (`WhatsAppManager`, src/unnamed/part_004) -/

/-- A configured notification recipient (parsed from `WHATSAPP_RECIPIENTS`):
`receiveNotifications` is `true` unless explicitly set to `false`. -/
structure Recipient where
  phone : Option String
  email : Option String
  receiveNotifications : Bool
  deriving Repr, DecidableEq

/-- The WhatsApp-relevant configuration of the manager and orchestrator. -/
structure WhatsAppConfig where
  enabled : Bool
  sendOnSuccess : Bool
  notificationPhone : Option String
  deriving Repr, DecidableEq

/-- Email configuration of the orchestrator (`config.email`). -/
structure EmailConfig where
  enabled : Bool
  clientEmail : Option String
  emailClient : Option String
  deriving Repr, DecidableEq

/-- JavaScript `a || b` over possibly-absent strings (empty string is falsy). -/
def jsOr (a b : Option String) : Option String :=
  match a with
  | some s =>
      if s != "" then some s
      else match b with
           | some t => if t != "" then some t else none
           | none => none
  | none =>
      match b with
      | some t => if t != "" then some t else none
      | none => none

/-- `[...new Set(arr)]`: removes duplicates keeping first occurrences. -/
def dedupFirst (l : List String) : List String :=
  l.foldl (fun acc x => if acc.contains x then acc else acc ++ [x]) []

/-- `WhatsAppManager.getAllNotificationRecipients`: the configured
notification phone plus every recipient phone that has not opted out,
deduplicated. -/
def getAllNotificationRecipients (cfg : WhatsAppConfig) (recips : List Recipient) :
    List String :=
  let base :=
    match cfg.notificationPhone with
    | some p => if p != "" then [p] else []
    | none => []
  let rest := recips.filterMap (fun r =>
    match r.phone with
    | some p => if p != "" && r.receiveNotifications then some p else none
    | none => none)
  dedupFirst (base ++ rest)

/-- The `📋` sumilla line of a formatted entry (truncation at 80 chars). -/
def sumillaLine (sumilla : String) : String :=
  "📋 " ++ sumilla.take 80 ++ (if sumilla.length > 80 then "..." else "") ++ "\n"

/-- One itemized entry of `formatPersonalizedMessage` (status is always `🔴`). -/
def entryBlock (idx : Nat) (n : Item) : String :=
  "🔴 *" ++ toString (idx + 1) ++ ".* " ++ n.numeroNotificacion ++ "\n" ++
  "📄 Exp: " ++ n.numeroExpediente ++ "\n" ++
  sumillaLine n.sumilla ++
  "🏢 " ++ n.oficinaJudicial ++ "\n" ++
  "📅 " ++ n.fecha ++ "\n\n"

/-- The itemized entries of `formatPersonalizedMessage`: the code iterates
`notificationsData.slice(0, 20)` with its index. -/
def itemizedEntries (data : List Item) : List String :=
  (data.take 20).enum.map (fun p => entryBlock p.1 p.2)

/-- The overflow line of `formatPersonalizedMessage`, emitted when more
than 20 notifications are pending. -/
def overflowSummary (data : List Item) : String :=
  if data.length > 20 then
    "... y " ++ toString (data.length - 20) ++ " notificaciones adicionales.\n\n"
  else ""

/-- `WhatsAppManager.formatPersonalizedMessage` (the `userPhone` argument
is unused by the code's body). -/
def formatPersonalizedMessage (data : List Item) (nowStr _userPhone : String) : String :=
  let header := "🏛️ *SINOE - Notificaciones Electrónicas*\n"
  let timestamp := "📅 " ++ nowStr ++ "\n\n"
  let summary := "📊 *Resumen:* " ++ toString data.length ++ " notificación(es) nueva(s)\n\n"
  let details := String.join (itemizedEntries data) ++ overflowSummary data
  let footer := "🤖 _Sistema SINOE - Procesamiento automático cada 3 horas_"
  header ++ timestamp ++ summary ++ details ++ footer

/-- Events of one `sendMessage` call: send attempts and recovery attempts,
indexed by the `retryCount` at which they happen. -/
inductive SendEvent where
  | attempt (retryCount : Nat) (ok : Bool)
  | recovery (retryCount : Nat) (ok : Bool)
  deriving Repr, DecidableEq

/-- `const MAX_RETRIES = 1` in `WhatsAppManager.sendMessage`. -/
def MAX_RETRIES : Nat := 1

/-- `WhatsAppManager.sendMessage`: attempt outcomes and recovery outcomes
are oracles indexed by `retryCount`; `clientReady` models the
no-client / not-ready early exits.  On a failed attempt with
`retryCount < MAX_RETRIES`, one recovery is attempted and, if it
succeeds, the send is retried once with `retryCount + 1`. -/
def sendMessage (clientReady : Bool) (attemptOk recoveryOk : Nat → Bool) :
    Nat → Bool × List SendEvent
  | retryCount =>
    if !clientReady then (false, [])
    else if attemptOk retryCount then (true, [SendEvent.attempt retryCount true])
    else if h : retryCount < MAX_RETRIES then
      if recoveryOk retryCount then
        let rest := sendMessage clientReady attemptOk recoveryOk (retryCount + 1)
        (rest.1, SendEvent.attempt retryCount false ::
                 SendEvent.recovery retryCount true :: rest.2)
      else (false, [SendEvent.attempt retryCount false, SendEvent.recovery retryCount false])
    else (false, [SendEvent.attempt retryCount false])
  termination_by retryCount => MAX_RETRIES + 1 - retryCount
  decreasing_by omega

/-- Externally visible actions of a delivery cycle. -/
inductive Event where
  | primarySend (user message : String) (ok : Bool)
  | mark (exp noti user : String)
  | fallbackSend (dest subject body : String) (ok : Bool)
  deriving Repr, DecidableEq

/-- The mark loop of `sendPersonalizedNotifications`: one
`markUserAsNotified` per sent notification, sequentially against the
live store (read store = write store between sequential calls). -/
def markAll (store : Store) (pending : List Item) (userPhone timestamp : String) : Store :=
  pending.foldl
    (fun st n =>
      (markUserAsNotified st st n.numeroExpediente n.numeroNotificacion userPhone timestamp).1)
    store

/-- `WhatsAppManager.sendPersonalizedNotifications`: query the unsent
notifications for the recipient from DynamoDB, format one batched
message, send it, and only on a successful send mark every included
notification as delivered.  `sendOk` abstracts the outcome of
`sendMessage` for this recipient.  Returns the new store, the
`(success, count)` result, and the event trace. -/
def sendPersonalizedNotifications (store : Store) (sendOk : String → Bool)
    (userPhone nowStr timestamp currentDate : String) :
    Store × (Bool × Nat) × List Event :=
  let notificationsToSend := getTodaysNotificationsForUser store userPhone currentDate
  if notificationsToSend.isEmpty then (store, (true, 0), [])
  else
    let message := formatPersonalizedMessage notificationsToSend nowStr userPhone
    if sendOk userPhone then
      let store1 := markAll store notificationsToSend userPhone timestamp
      (store1, (true, notificationsToSend.length),
        Event.primarySend userPhone message true ::
          notificationsToSend.map
            (fun n => Event.mark n.numeroExpediente n.numeroNotificacion userPhone))
    else
      (store, (false, 0), [Event.primarySend userPhone message false])

/-- Accumulator of the `sendNotificationsSummary` recipient loop. -/
structure CycleState where
  store : Store
  totalSent : Nat
  totalFailed : Nat
  events : List Event

/-- `WhatsAppManager.sendNotificationsSummary`: iterate every configured
recipient, counting per-recipient successes; the summary succeeds iff at
least one recipient's personalized send succeeded.  (Its
`notificationsData` argument is unused: filtering is always done against
DynamoDB.) -/
def sendNotificationsSummary (cfg : WhatsAppConfig) (recips : List Recipient)
    (store : Store) (sendOk : String → Bool) (nowStr timestamp currentDate : String) :
    Store × Bool × List Event :=
  if !cfg.enabled then (store, false, [])
  else
    let recipients := getAllNotificationRecipients cfg recips
    if recipients.isEmpty then (store, false, [])
    else
      let final := recipients.foldl
        (fun (acc : CycleState) recipient =>
          let r := sendPersonalizedNotifications acc.store sendOk recipient
                     nowStr timestamp currentDate
          if r.2.1.1 then
            ⟨r.1, acc.totalSent + 1, acc.totalFailed, acc.events ++ r.2.2⟩
          else
            ⟨r.1, acc.totalSent, acc.totalFailed + 1, acc.events ++ r.2.2⟩)
        ⟨store, 0, 0, []⟩
      (final.store, final.totalSent > 0, final.events)

/-! ## Orchestrator and email fallback (`EthicalScraper`, src/src/ethicalScraper.js) -/

/-- One row of the fallback email's HTML table (`formatEmailNotifications`). -/
def emailRow (index : Nat) (n : Notification) : String :=
  let statusColor := if n.estado == "ABIERTA" then "#27ae60" else "#e74c3c"
  let statusIcon := if n.estado == "ABIERTA" then "🟢" else "🔴"
  "<tr style=\"" ++ (if index % 2 == 0 then "background-color: #f8f9fa;" else "") ++ "\">" ++
  "<td style=\"padding: 8px; border: 1px solid #ddd; text-align: center;\">" ++
    toString (index + 1) ++ "</td>" ++
  "<td style=\"padding: 8px; border: 1px solid #ddd; text-align: center; color: " ++
    statusColor ++ ";\">" ++ statusIcon ++ " " ++ n.estado ++ "</td>" ++
  "<td style=\"padding: 8px; border: 1px solid #ddd; font-weight: bold;\">" ++
    n.numeroNotificacion ++ "</td>" ++
  "<td style=\"padding: 8px; border: 1px solid #ddd;\">" ++ n.numeroExpediente ++ "</td>" ++
  "<td style=\"padding: 8px; border: 1px solid #ddd;\">" ++ n.sumilla ++ "</td>" ++
  "<td style=\"padding: 8px; border: 1px solid #ddd; font-size: 12px;\">" ++
    n.oficinaJudicial ++ "</td>" ++
  "<td style=\"padding: 8px; border: 1px solid #ddd; text-align: center;\">" ++
    n.fecha ++ "</td></tr>"

/-- `EthicalScraper.formatEmailNotifications`: the HTML body of the
fallback email (header with open/closed counts, one table row per
notification, backup-notice footer). -/
def formatEmailNotifications (notificationsData : List Notification) (nowStr : String) :
    String :=
  let openCount := (notificationsData.filter (fun n => n.estado != "CERRADA")).length
  let closedCount := (notificationsData.filter (fun n => n.estado == "CERRADA")).length
  "<div style=\"font-family: Arial, sans-serif; max-width: 800px; margin: 0 auto;\">" ++
  "<h2 style=\"color: #2c3e50; border-bottom: 2px solid #3498db;\">🏛️ SINOE - Notificaciones Electrónicas</h2>" ++
  "<p><strong>📅 Fecha:</strong> " ++ nowStr ++ "</p>" ++
  "<p><strong>📊 Resumen:</strong> " ++ toString notificationsData.length ++
    " notificación(es) encontrada(s)</p>" ++
  "<p style=\"font-size: 16px;\">🟢 " ++ toString openCount ++ " Abiertas | 🔴 " ++
    toString closedCount ++ " Cerradas</p>" ++
  "<h3 style=\"color: #27ae60;\">📋 Detalle de Notificaciones:</h3><table><tbody>" ++
  String.join (notificationsData.enum.map (fun p => emailRow p.1 p.2)) ++
  "</tbody></table>" ++
  "<p>🤖 Generado automáticamente por el sistema SINOE<br>" ++
  "📧 Este correo fue enviado como respaldo debido a fallas en WhatsApp</p></div>"

/-- `EthicalScraper.sendEmailNotifications`: gates on email being enabled
and on having notifications; recipient list is every configured
recipient email (opt-outs excluded), falling back to
`clientEmail || emailClient`; sends one email per recipient and succeeds
iff at least one send succeeded.  Never touches the record store. -/
def sendEmailNotifications (emailCfg : EmailConfig) (recips : List Recipient)
    (emailOk : String → Bool) (notificationsData : List Notification)
    (nowStr : String) : Bool × List Event :=
  if !emailCfg.enabled then (false, [])
  else if notificationsData.isEmpty then (false, [])
  else
    let allNotifications := notificationsData
    let closedCount := (notificationsData.filter (fun n => n.estado == "CERRADA")).length
    let openCount := (allNotifications.filter (fun n => n.estado != "CERRADA")).length
    let subject := "🏛️ SINOE - " ++ toString allNotifications.length ++
      " Notificaciones: " ++ toString openCount ++ " Abiertas, " ++
      toString closedCount ++ " Cerradas"
    let emailContent := formatEmailNotifications allNotifications nowStr
    let fromRecips := recips.filterMap (fun r =>
      match r.email with
      | some e => if e != "" && r.receiveNotifications then some e else none
      | none => none)
    let emailRecipients :=
      if fromRecips.isEmpty then
        match jsOr emailCfg.clientEmail emailCfg.emailClient with
        | some e => [e]
        | none => []
      else fromRecips
    if emailRecipients.isEmpty then (false, [])
    else
      let sent := emailRecipients.map (fun r => (r, emailOk r))
      let successCount := (sent.filter (fun p => p.2)).length
      (successCount > 0, sent.map (fun p => Event.fallbackSend p.1 subject emailContent p.2))

/-- The courtesy "no new notifications" message of
`EthicalScraper.sendNotifications`. -/
def emptyMessage (nowStr : String) : String :=
  "🏛️ *SINOE - Notificaciones Electrónicas*\n\n📅 " ++ nowStr ++
  "\n\n📊 No se encontraron notificaciones nuevas.\n\n🤖 _Generado automáticamente por el sistema SINOE_"

/-- `WhatsAppManager.sendMessageToAll` at the event level: one primary
send per recipient (outcomes by oracle), no ledger interaction. -/
def sendMessageToAll (sendOk : String → Bool) (recipients : List String)
    (message : String) : List Event :=
  recipients.map (fun r => Event.primarySend r message (sendOk r))

/-- Result of one orchestrator notification phase. -/
structure RunResult where
  store : Store
  success : Bool
  events : List Event
  deriving Repr, DecidableEq

/-- `EthicalScraper.sendNotifications`: gate on WhatsApp being enabled
with `sendOnSuccess`; with no extracted data, send the courtesy message
and report failure; otherwise run the WhatsApp summary and, only if it
reports failure (no recipient was sent anything), escalate once to the
email fallback with the raw extracted notification list. -/
def ethicalSendNotifications (waCfg : WhatsAppConfig) (emailCfg : EmailConfig)
    (recips : List Recipient) (store : Store) (sendOk emailOk : String → Bool)
    (extractedData : Option (List Notification))
    (nowStr timestamp currentDate : String) : RunResult :=
  if !(waCfg.enabled && waCfg.sendOnSuccess) then ⟨store, false, []⟩
  else
    match extractedData with
    | none =>
        let recipients := getAllNotificationRecipients waCfg recips
        if recipients.isEmpty then ⟨store, false, []⟩
        else ⟨store, false, sendMessageToAll sendOk recipients (emptyMessage nowStr)⟩
    | some notifs =>
        let r := sendNotificationsSummary waCfg recips store sendOk nowStr timestamp currentDate
        if r.2.1 then ⟨r.1, true, r.2.2⟩
        else
          let e := sendEmailNotifications emailCfg recips emailOk notifs nowStr
          ⟨r.1, e.1, r.2.2 ++ e.2⟩

/-! ## Spec-side query for the refinement comparison of the unsent query -/

/-- The unsent query exactly as the spec words it (§4.2 `unsentFor`):
records created on `asOfDate` whose `deliveries` list has **no entry**
for the recipient with `delivered = true`.  Stated from the spec's words,
for comparison with `getTodaysNotificationsForUser`. -/
def unsentForSpec (store : Store) (userPhone currentDate : String) : List Item :=
  store.filter (fun i =>
    i.fechaCreacionItem == currentDate &&
    !(i.envios.any (fun e => e.user == userPhone && e.enviado)))

/-! ## Store lemmas -/

theorem sameKey_self (item : Item) :
    sameKey item item.numeroExpediente item.numeroNotificacion = true := by
  simp [sameKey]

theorem getNotification_putItem_self (store : Store) (item : Item) :
    getNotification (putItem store item) item.numeroExpediente item.numeroNotificacion
      = some item := by
  induction store with
  | nil =>
      simp only [putItem, getNotification]
      exact List.find?_cons_of_pos _ (sameKey_self item)
  | cons a rest ih =>
      unfold putItem
      by_cases ha : sameKey a item.numeroExpediente item.numeroNotificacion = true
      · rw [if_pos ha]
        exact List.find?_cons_of_pos _ (sameKey_self item)
      · rw [if_neg ha]
        unfold getNotification at ih ⊢
        exact (List.find?_cons_of_neg
          (p := fun i => sameKey i item.numeroExpediente item.numeroNotificacion)
          (putItem rest item) ha).trans ih

theorem hasSignificantChanges_eq_false (a b : Item)
    (h1 : a.estado = b.estado) (h2 : a.sumilla = b.sumilla)
    (h3 : a.oficinaJudicial = b.oficinaJudicial) (h4 : a.fecha = b.fecha) :
    hasSignificantChanges a b = false := by
  simp [hasSignificantChanges, h1, h2, h3, h4]

/-- If the stored item already agrees with the incoming record on the
four tracked fields, `saveNotification` performs no write. -/
theorem saveNotification_unchanged (store : Store) (n : Notification)
    (ts d : String) (src : Option String) (putOk : Bool) (existing : Item)
    (hget : getNotification store n.numeroExpediente n.numeroNotificacion = some existing)
    (h1 : existing.estado = n.estado) (h2 : existing.sumilla = n.sumilla)
    (h3 : existing.oficinaJudicial = n.oficinaJudicial) (h4 : existing.fecha = n.fecha) :
    saveNotification store putOk n ts d src = (store, ⟨true, false, none⟩) := by
  have hch : hasSignificantChanges existing (mkItem n ts d src) = false :=
    hasSignificantChanges_eq_false _ _ h1 h2 h3 h4
  unfold saveNotification
  simp only [hget, hch, Bool.false_eq_true, if_false]

/-- After a successful `saveNotification`, the stored item under the
record's key carries the incoming record's four tracked fields. -/
theorem saveNotification_stores_fields (store : Store) (n : Notification)
    (ts d : String) (src : Option String) :
    ∃ it, getNotification (saveNotification store true n ts d src).1
            n.numeroExpediente n.numeroNotificacion = some it ∧
          it.estado = n.estado ∧ it.sumilla = n.sumilla ∧
          it.oficinaJudicial = n.oficinaJudicial ∧ it.fecha = n.fecha := by
  unfold saveNotification
  cases hget : getNotification store n.numeroExpediente n.numeroNotificacion with
  | none =>
      refine ⟨{ mkItem n ts d src with fechaCreacion := ts }, ?_, rfl, rfl, rfl, rfl⟩
      simpa using getNotification_putItem_self store
        { mkItem n ts d src with fechaCreacion := ts }
  | some existingItem =>
      by_cases hch : hasSignificantChanges existingItem (mkItem n ts d src) = true
      · simp only [hch, if_true]
        by_cases hh : (existingItem.hashContenido != "" &&
            (mkItem n ts d src).hashContenido != "" &&
            existingItem.hashContenido != (mkItem n ts d src).hashContenido) = true
        · rw [if_pos hh]
          refine ⟨{ { mkItem n ts d src with
              fechaCreacion := existingItem.fechaCreacion,
              fechaCreacionItem := existingItem.fechaCreacionItem,
              version := some (existingItem.version.getD 0),
              envios := existingItem.envios,
              ultimaActualizacion := ts } with
              envios := ([] : List Envio), version := some 0 }, ?_, rfl, rfl, rfl, rfl⟩
          simpa using getNotification_putItem_self store _
        · rw [if_neg hh]
          refine ⟨{ mkItem n ts d src with
              fechaCreacion := existingItem.fechaCreacion,
              fechaCreacionItem := existingItem.fechaCreacionItem,
              version := some (existingItem.version.getD 0),
              envios := existingItem.envios,
              ultimaActualizacion := ts }, ?_, rfl, rfl, rfl, rfl⟩
          simpa using getNotification_putItem_self store _
      · have hch' : hasSignificantChanges existingItem (mkItem n ts d src) = false :=
          eq_false_of_ne_true hch
        simp only [hch', Bool.false_eq_true, if_false]
        simp only [hasSignificantChanges, Bool.or_eq_false_iff, bne_eq_false_iff_eq] at hch'
        exact ⟨existingItem, hget, hch'.1.1.1, hch'.1.1.2, hch'.1.2, hch'.2⟩

/-! ## C6 — idempotent upsert of the Change Detector -/

/-- C6: the Change Detector's upsert is idempotent: re-running
`saveNotification` on an input identical to the one just processed (same
key and same tracked content, timestamps free to differ) performs no
write — the store, and hence the stored `version` and `envios`, are
unchanged by the second application, which reports success without a new
record. -/
theorem changeDetector_idempotent (store : Store) (n : Notification)
    (ts1 d1 ts2 d2 : String) (src1 src2 : Option String) :
    saveNotification (saveNotification store true n ts1 d1 src1).1 true n ts2 d2 src2
        = ((saveNotification store true n ts1 d1 src1).1, ⟨true, false, none⟩) := by
  obtain ⟨it, hget, h1, h2, h3, h4⟩ := saveNotification_stores_fields store n ts1 d1 src1
  exact saveNotification_unchanged _ n ts2 d2 src2 true it hget h1 h2 h3 h4

/-! ## C8 — batch processing continues past per-record failures -/

theorem addResults_empty (a : BatchResults) : addResults a emptyBatchResults = a := by
  cases a; simp [addResults, emptyBatchResults]

theorem empty_addResults (a : BatchResults) : addResults emptyBatchResults a = a := by
  cases a; simp [addResults, emptyBatchResults]

theorem addResults_assoc (a b c : BatchResults) :
    addResults (addResults a b) c = addResults a (addResults b c) := by
  simp [addResults, Nat.add_assoc]

/-- The loop body's counters do not depend on the counters accumulated so
far: they split off as a sum. -/
theorem processOne_shift (putOk : Notification → Bool) (ts d : String)
    (src : Option String) (st : Store) (res : BatchResults) (n : Notification) :
    processOne putOk ts d src (st, res) n =
      ((processOne putOk ts d src (st, emptyBatchResults) n).1,
       addResults res (processOne putOk ts d src (st, emptyBatchResults) n).2) := by
  unfold processOne
  cases h : (saveNotification st (putOk n) n ts d src).2.success
  · simp [h, addResults, emptyBatchResults]
  · cases h2 : (saveNotification st (putOk n) n ts d src).2.isNew <;>
      simp [h, h2, addResults, emptyBatchResults]

/-- Folding the batch loop from an arbitrary accumulator equals running
`processBatch` and adding the counters. -/
theorem processBatch_fold_shift (putOk : Notification → Bool) (ts d : String)
    (src : Option String) :
    ∀ (notifs : List Notification) (st : Store) (res : BatchResults),
    notifs.foldl (processOne putOk ts d src) (st, res) =
      ((processBatch st putOk notifs ts d src).1,
       addResults res (processBatch st putOk notifs ts d src).2) := by
  intro notifs
  induction notifs with
  | nil =>
      intro st res
      simp [processBatch, addResults_empty]
  | cons n rest ih =>
      intro st res
      simp only [List.foldl_cons]
      rw [processOne_shift]
      rw [ih]
      have hrhs : processBatch st putOk (n :: rest) ts d src =
          ((processBatch (processOne putOk ts d src (st, emptyBatchResults) n).1
              putOk rest ts d src).1,
           addResults (processOne putOk ts d src (st, emptyBatchResults) n).2
             (processBatch (processOne putOk ts d src (st, emptyBatchResults) n).1
               putOk rest ts d src).2) := by
        show (n :: rest).foldl (processOne putOk ts d src) (st, emptyBatchResults) = _
        simp only [List.foldl_cons]
        rw [processOne_shift, ih]
      rw [hrhs, addResults_assoc]

/-- Per-record counter delta: each record contributes exactly one to
`success + failed`, one error message iff it failed, and one to
`newRecords + updatedRecords` iff it succeeded. -/
theorem processOne_delta (putOk : Notification → Bool) (ts d : String)
    (src : Option String) (st : Store) (n : Notification) :
    (processOne putOk ts d src (st, emptyBatchResults) n).2.success +
      (processOne putOk ts d src (st, emptyBatchResults) n).2.failed = 1 ∧
    (processOne putOk ts d src (st, emptyBatchResults) n).2.errors.length =
      (processOne putOk ts d src (st, emptyBatchResults) n).2.failed ∧
    (processOne putOk ts d src (st, emptyBatchResults) n).2.newRecords +
      (processOne putOk ts d src (st, emptyBatchResults) n).2.updatedRecords =
      (processOne putOk ts d src (st, emptyBatchResults) n).2.success := by
  unfold processOne
  cases h : (saveNotification st (putOk n) n ts d src).2.success
  · simp [h, emptyBatchResults]
  · cases h2 : (saveNotification st (putOk n) n ts d src).2.isNew <;>
      simp [h, h2, emptyBatchResults]

theorem processBatch_counts (store : Store) (putOk : Notification → Bool)
    (notifs : List Notification) (ts d : String) (src : Option String) :
    (processBatch store putOk notifs ts d src).2.success +
      (processBatch store putOk notifs ts d src).2.failed = notifs.length ∧
    (processBatch store putOk notifs ts d src).2.errors.length =
      (processBatch store putOk notifs ts d src).2.failed ∧
    (processBatch store putOk notifs ts d src).2.newRecords +
      (processBatch store putOk notifs ts d src).2.updatedRecords =
      (processBatch store putOk notifs ts d src).2.success := by
  induction notifs generalizing store with
  | nil => simp [processBatch, emptyBatchResults]
  | cons n rest ih =>
      have hstep : processBatch store putOk (n :: rest) ts d src =
          ((processBatch (processOne putOk ts d src (store, emptyBatchResults) n).1
              putOk rest ts d src).1,
           addResults (processOne putOk ts d src (store, emptyBatchResults) n).2
             (processBatch (processOne putOk ts d src (store, emptyBatchResults) n).1
               putOk rest ts d src).2) := by
        show (n :: rest).foldl (processOne putOk ts d src) (store, emptyBatchResults) = _
        simp only [List.foldl_cons]
        rw [processOne_shift, processBatch_fold_shift]
      obtain ⟨hd1, hd2, hd3⟩ := processOne_delta putOk ts d src store n
      obtain ⟨hr1, hr2, hr3⟩ :=
        ih (processOne putOk ts d src (store, emptyBatchResults) n).1
      rw [hstep]
      refine ⟨?_, ?_, ?_⟩ <;> simp [addResults] <;> omega

/-- `processBatch` over a concatenation processes the second part from
the state left by the first and adds the counters: a failure inside `l1`
never prevents `l2` from being processed. -/
theorem processBatch_append (store : Store) (putOk : Notification → Bool)
    (l1 l2 : List Notification) (ts d : String) (src : Option String) :
    processBatch store putOk (l1 ++ l2) ts d src =
      ((processBatch (processBatch store putOk l1 ts d src).1 putOk l2 ts d src).1,
       addResults (processBatch store putOk l1 ts d src).2
         (processBatch (processBatch store putOk l1 ts d src).1 putOk l2 ts d src).2) := by
  show (l1 ++ l2).foldl (processOne putOk ts d src) (store, emptyBatchResults) = _
  rw [List.foldl_append]
  have h1 : l1.foldl (processOne putOk ts d src) (store, emptyBatchResults)
      = processBatch store putOk l1 ts d src := rfl
  rw [h1]
  rcases hs : processBatch store putOk l1 ts d src with ⟨s1, r1⟩
  simpa using processBatch_fold_shift putOk ts d src l2 s1 r1

theorem chunk25_flatten {α : Type} : ∀ (l : List α), (chunk25 l).flatten = l := by
  intro l
  induction l using chunk25.induct with
  | case1 => simp [chunk25]
  | case2 x xs ih =>
      rw [chunk25]
      simp only [List.flatten_cons, ih]
      exact List.take_append_drop _ _

theorem saveNotifications_counts (store : Store) (putOk : Notification → Bool)
    (notifs : List Notification) (ts d : String) (src : Option String) :
    (saveNotifications store putOk notifs ts d src).2.success +
      (saveNotifications store putOk notifs ts d src).2.failed = notifs.length := by
  unfold saveNotifications
  by_cases he : notifs.isEmpty
  · rw [if_pos he]
    simp [emptyBatchResults, List.isEmpty_iff.mp he]
  · rw [if_neg he]
    have main : ∀ (cs : List (List Notification)) (st : Store) (res : BatchResults),
        ((cs.foldl (fun acc batch =>
            let r := processBatch acc.1 putOk batch ts d src
            (r.1, addResults acc.2 r.2)) (st, res)).2.success +
         (cs.foldl (fun acc batch =>
            let r := processBatch acc.1 putOk batch ts d src
            (r.1, addResults acc.2 r.2)) (st, res)).2.failed)
          = res.success + res.failed + cs.flatten.length := by
      intro cs
      induction cs with
      | nil => intro st res; simp
      | cons c rest ih =>
          intro st res
          simp only [List.foldl_cons, List.flatten_cons, List.length_append]
          rw [ih]
          obtain ⟨hc, -, -⟩ := processBatch_counts st putOk c ts d src
          simp only [addResults]
          omega
    have h := main (chunk25 notifs) store emptyBatchResults
    rw [chunk25_flatten] at h
    simpa [emptyBatchResults] using h

/-- C8: processing a batch continues past store-write failures: the
records after any prefix are still processed from the state the prefix
left (composition over `++`), each failure contributes exactly one
per-record error message, and the counters satisfy
`success + failed = number of input records`, both for one `processBatch`
and for the chunked `saveNotifications` wrapper. -/
theorem batch_continues_past_failures (store : Store) (putOk : Notification → Bool)
    (l1 l2 : List Notification) (ts d : String) (src : Option String) :
    processBatch store putOk (l1 ++ l2) ts d src =
      ((processBatch (processBatch store putOk l1 ts d src).1 putOk l2 ts d src).1,
       addResults (processBatch store putOk l1 ts d src).2
         (processBatch (processBatch store putOk l1 ts d src).1 putOk l2 ts d src).2) ∧
    (processBatch store putOk (l1 ++ l2) ts d src).2.success +
      (processBatch store putOk (l1 ++ l2) ts d src).2.failed
        = l1.length + l2.length ∧
    (processBatch store putOk (l1 ++ l2) ts d src).2.errors.length =
      (processBatch store putOk (l1 ++ l2) ts d src).2.failed ∧
    (saveNotifications store putOk (l1 ++ l2) ts d src).2.success +
      (saveNotifications store putOk (l1 ++ l2) ts d src).2.failed
        = l1.length + l2.length := by
  obtain ⟨h1, h2, -⟩ := processBatch_counts store putOk (l1 ++ l2) ts d src
  refine ⟨processBatch_append store putOk l1 l2 ts d src, ?_, h2, ?_⟩
  · simpa using h1
  · simpa using saveNotifications_counts store putOk (l1 ++ l2) ts d src

/-! ## Delivery-ledger upsert lemmas -/

theorem getNotification_some_key (store : Store) (exp noti : String) (cur : Item)
    (h : getNotification store exp noti = some cur) :
    cur.numeroExpediente = exp ∧ cur.numeroNotificacion = noti := by
  have hp := List.find?_some h
  simpa [sameKey] using hp

/-- Recursive characterization of the in-memory upsert: replace the first
entry whose `user` matches, else append. -/
def upsertRec (phoneString timestamp : String) : List Envio → List Envio
  | [] => [nuevoEnvio phoneString timestamp]
  | e :: rest =>
      if e.user == phoneString then nuevoEnvio phoneString timestamp :: rest
      else e :: upsertRec phoneString timestamp rest

theorem findIdx?_cons_map (q : Envio → Bool) (a : Envio) (l : List Envio) :
    (a :: l).findIdx? q = if q a then some 0 else (l.findIdx? q).map (· + 1) := by
  simp [List.findIdx?_cons]

theorem upsertEnvio_eq_upsertRec (envios : List Envio) (p ts : String) :
    upsertEnvio envios p ts = upsertRec p ts envios := by
  induction envios with
  | nil => simp [upsertEnvio, upsertRec]
  | cons a rest ih =>
      unfold upsertEnvio upsertRec
      rw [findIdx?_cons_map]
      by_cases ha : (a.user == p) = true
      · rw [if_pos ha, if_pos ha]
        simp
      · rw [if_neg ha, if_neg ha]
        unfold upsertEnvio at ih
        cases hidx : rest.findIdx? (fun x => x.user == p) with
        | none =>
            rw [hidx] at ih
            simpa using congrArg (a :: ·) ih
        | some i =>
            rw [hidx] at ih
            simpa [List.set_cons_succ] using congrArg (a :: ·) ih

theorem upsertEnvio_frame (envios : List Envio) (p ts : String) :
    ∀ (j : Nat) (e : Envio), envios[j]? = some e → (e.user == p) = false →
      (upsertEnvio envios p ts)[j]? = some e := by
  rw [upsertEnvio_eq_upsertRec]
  induction envios with
  | nil => intro j e hj _; simp at hj
  | cons a rest ih =>
      intro j e hj hne
      unfold upsertRec
      by_cases ha : (a.user == p) = true
      · rw [if_pos ha]
        cases j with
        | zero =>
            simp only [List.getElem?_cons_zero, Option.some.injEq] at hj
            rw [← hj] at hne
            rw [hne] at ha
            cases ha
        | succ k => simpa using hj
      · rw [if_neg ha]
        cases j with
        | zero => simpa using hj
        | succ k =>
            simp only [List.getElem?_cons_succ] at hj ⊢
            exact ih k e hj hne

theorem upsertEnvio_length (envios : List Envio) (p ts : String) :
    (upsertEnvio envios p ts).length = envios.length ∨
    (upsertEnvio envios p ts).length = envios.length + 1 := by
  rw [upsertEnvio_eq_upsertRec]
  induction envios with
  | nil => right; simp [upsertRec]
  | cons a rest ih =>
      unfold upsertRec
      by_cases ha : (a.user == p) = true
      · left; rw [if_pos ha]; simp
      · rw [if_neg ha]
        simp only [List.length_cons]
        rcases ih with h | h
        · left; rw [h]
        · right; rw [h]

theorem upsertEnvio_countP_ne (envios : List Envio) (p ts u : String) (hu : u ≠ p) :
    (upsertEnvio envios p ts).countP (fun e => e.user == u)
      = envios.countP (fun e => e.user == u) := by
  have hpu : (p == u) = false := by
    simp only [beq_eq_false_iff_ne, ne_eq]
    exact fun h => hu h.symm
  rw [upsertEnvio_eq_upsertRec]
  induction envios with
  | nil => simp [upsertRec, nuevoEnvio, List.countP_cons, hpu]
  | cons a rest ih =>
      unfold upsertRec
      by_cases ha : (a.user == p) = true
      · rw [if_pos ha]
        have hau : a.user = p := by simpa using ha
        simp [List.countP_cons, nuevoEnvio, hau, hpu]
      · rw [if_neg ha]
        simp [List.countP_cons, ih]

theorem upsertEnvio_countP_self (envios : List Envio) (p ts : String)
    (h : envios.countP (fun e => e.user == p) ≤ 1) :
    (upsertEnvio envios p ts).countP (fun e => e.user == p) ≤ 1 := by
  rw [upsertEnvio_eq_upsertRec]
  induction envios with
  | nil => simp [upsertRec, nuevoEnvio, List.countP_cons]
  | cons a rest ih =>
      unfold upsertRec
      by_cases ha : (a.user == p) = true
      · rw [if_pos ha]
        simp only [List.countP_cons, ha, if_true, nuevoEnvio] at h ⊢
        simpa using h
      · rw [if_neg ha]
        simp only [List.countP_cons, ha, Bool.false_eq_true, if_false] at h ⊢
        simpa using ih (by simpa using h)

theorem upsertEnvio_find_self (envios : List Envio) (p ts : String) :
    (upsertEnvio envios p ts).find? (fun e => e.user == p) = some (nuevoEnvio p ts) := by
  rw [upsertEnvio_eq_upsertRec]
  induction envios with
  | nil => simp [upsertRec, nuevoEnvio]
  | cons a rest ih =>
      unfold upsertRec
      by_cases ha : (a.user == p) = true
      · rw [if_pos ha]
        exact List.find?_cons_of_pos _ (by simp [nuevoEnvio])
      · rw [if_neg ha]
        exact (List.find?_cons_of_neg
          (p := fun e => e.user == p) (upsertRec p ts rest) ha).trans ih

/-! ## Concrete fixtures shared by witnesses and counterexamples -/

def envio2 : Envio :=
  { user := "51900000002", enviado := true, fechaEnvio := "t1", procesado := true }

def exItem0 : Item :=
  { numeroExpediente := "00187-2025", numeroNotificacion := "43443-2025",
    estado := "ABIERTA", sumilla := "s", oficinaJudicial := "o", fecha := "2025-01-01",
    fechaExtraccion := "t0", ultimaActualizacion := "t0", fuente := "SINOE",
    fechaCreacionItem := "2025-01-02", fechaCreacion := "t0",
    version := some 0, envios := [], hashContenido := "h" }

def exItem1 : Item := { exItem0 with version := some 1, envios := [envio2] }

/-! ## C4 — conditional, optimistically locked ledger write -/

/-- C4: `markUserAsNotified` reads the record's `envios` and `version`
(projection read), upserts in memory a delivery attempt for the
recipient with `enviado = true`, `procesado = true`, `fechaEnvio = now`
(replacing the entry matching the recipient, else appending), and issues
a single conditional write setting `envios` to the new list and
incrementing `version` by exactly 1, conditioned on the stored version
still equalling the value read or the attribute being absent; on
condition failure it reports a retryable conflict and records nothing. -/
theorem markUserAsNotified_conditional_write (readStore writeStore : Store)
    (exp noti userPhone ts : String) (cur : Item)
    (hcur : getNotification writeStore exp noti = some cur) :
    ((markUserAsNotified readStore writeStore exp noti userPhone ts).2 = true ↔
      (cur.version = none ∨
       cur.version = some (((getNotification readStore exp noti).bind (·.version)).getD 0))) ∧
    ((markUserAsNotified readStore writeStore exp noti userPhone ts).2 = false →
      (markUserAsNotified readStore writeStore exp noti userPhone ts).1 = writeStore) ∧
    ((markUserAsNotified readStore writeStore exp noti userPhone ts).2 = true →
      getNotification (markUserAsNotified readStore writeStore exp noti userPhone ts).1
          exp noti =
        some { cur with
                 envios := upsertEnvio
                   (((getNotification readStore exp noti).map (·.envios)).getD [])
                   userPhone ts,
                 version := some (cur.version.getD 0 + 1),
                 ultimaActualizacion := ts } ∧
      (upsertEnvio (((getNotification readStore exp noti).map (·.envios)).getD [])
          userPhone ts).find? (fun e => e.user == userPhone)
        = some (nuevoEnvio userPhone ts)) := by
  obtain ⟨hexp, hnoti⟩ := getNotification_some_key writeStore exp noti cur hcur
  unfold markUserAsNotified
  simp only [hcur]
  by_cases hcond : cur.version = none ∨
      cur.version = some (((getNotification readStore exp noti).bind (·.version)).getD 0)
  · rw [if_pos hcond]
    refine ⟨by simpa using hcond, by simp, fun _ => ⟨?_, upsertEnvio_find_self _ _ _⟩⟩
    have hput := getNotification_putItem_self writeStore
      { cur with
          envios := upsertEnvio
            (((getNotification readStore exp noti).map (·.envios)).getD []) userPhone ts,
          version := some (cur.version.getD 0 + 1),
          ultimaActualizacion := ts }
    simpa [hexp, hnoti] using hput
  · rw [if_neg hcond]
    exact ⟨by simpa using hcond, fun _ => rfl, by simp⟩

/-- Witness for C4 at a concrete store: the conditional write succeeds
when the stored version equals the one read. -/
theorem markUserAsNotified_conditional_write_witness :
    (markUserAsNotified [exItem0] [exItem0]
      "00187-2025" "43443-2025" "51900000001" "t2").2 = true :=
  (markUserAsNotified_conditional_write [exItem0] [exItem0]
      "00187-2025" "43443-2025" "51900000001" "t2" exItem0 (by decide)).1.mpr
    (Or.inr (by decide))

/-! ## C10 — frame property of a successful ledger write -/

/-- C10: a successful `markDelivered` for a recipient modifies only that
recipient's entry in the record's `envios` list: every entry of a
different recipient is unchanged and at its original position, the list
grows by at most one, and at-most-one-entry-per-recipient is preserved;
the stored item is exactly the read item with the upserted list, version
incremented, and a fresh `ultimaActualizacion`. -/
theorem markUserAsNotified_frame (store : Store) (exp noti userPhone ts : String)
    (cur : Item) (hcur : getNotification store exp noti = some cur) :
    (markUserAsNotified store store exp noti userPhone ts).2 = true ∧
    getNotification (markUserAsNotified store store exp noti userPhone ts).1 exp noti =
      some { cur with envios := upsertEnvio cur.envios userPhone ts,
                      version := some (cur.version.getD 0 + 1),
                      ultimaActualizacion := ts } ∧
    (∀ (j : Nat) (e : Envio), cur.envios[j]? = some e → (e.user == userPhone) = false →
       (upsertEnvio cur.envios userPhone ts)[j]? = some e) ∧
    (upsertEnvio cur.envios userPhone ts).length ≤ cur.envios.length + 1 ∧
    ((∀ u, cur.envios.countP (fun e => e.user == u) ≤ 1) →
      ∀ u, (upsertEnvio cur.envios userPhone ts).countP (fun e => e.user == u) ≤ 1) := by
  obtain ⟨hexp, hnoti⟩ := getNotification_some_key store exp noti cur hcur
  have hcond : cur.version = none ∨ cur.version = some (cur.version.getD 0) := by
    cases hv : cur.version with
    | none => exact Or.inl rfl
    | some v => exact Or.inr rfl
  constructor
  · unfold markUserAsNotified
    simp only [hcur, Option.some_bind, Option.map_some', Option.getD_some]
    rw [if_pos hcond]
  constructor
  · unfold markUserAsNotified
    simp only [hcur, Option.some_bind, Option.map_some', Option.getD_some]
    rw [if_pos hcond]
    have hput := getNotification_putItem_self store
      { cur with
          envios := upsertEnvio cur.envios userPhone ts,
          version := some (cur.version.getD 0 + 1),
          ultimaActualizacion := ts }
    simpa [hexp, hnoti] using hput
  refine ⟨upsertEnvio_frame cur.envios userPhone ts, ?_, ?_⟩
  · rcases upsertEnvio_length cur.envios userPhone ts with h | h <;> omega
  · intro hinv u
    by_cases hu : u = userPhone
    · subst hu
      exact upsertEnvio_countP_self cur.envios u ts (hinv u)
    · rw [upsertEnvio_countP_ne cur.envios userPhone ts u hu]
      exact hinv u

/-- Witness for C10 at a concrete store with another recipient's entry:
delivery is recorded and the other entry is untouched. -/
theorem markUserAsNotified_frame_witness :
    (upsertEnvio exItem1.envios "51900000001" "t2")[0]? = some envio2 :=
  (markUserAsNotified_frame [exItem1] "00187-2025" "43443-2025" "51900000001" "t2"
      exItem1 (by decide)).2.2.1 0 envio2 (by decide) (by decide)

/-! ## C7 — bounded retry and recovery in sendMessage -/

def isAttemptEvent : SendEvent → Bool
  | SendEvent.attempt _ _ => true
  | SendEvent.recovery _ _ => false

def isRecoveryEvent : SendEvent → Bool
  | SendEvent.attempt _ _ => false
  | SendEvent.recovery _ _ => true

/-- C7: one external `sendMessage` call (entered at `retryCount = 0`)
performs at most `MAX_RETRIES + 1 = 2` send attempts and at most
`MAX_RETRIES = 1` recovery attempt, whatever the attempt and recovery
outcomes are: recovery happens at most once per send failure and the
retried send is never retried again, so the call always returns after a
bounded number of attempts. -/
theorem sendMessage_bounded (clientReady : Bool) (attemptOk recoveryOk : Nat → Bool) :
    (sendMessage clientReady attemptOk recoveryOk 0).2.countP isAttemptEvent
        ≤ MAX_RETRIES + 1 ∧
    (sendMessage clientReady attemptOk recoveryOk 0).2.countP isRecoveryEvent
        ≤ MAX_RETRIES := by
  cases hc : clientReady <;> cases h0 : attemptOk 0 <;> cases hr : recoveryOk 0 <;>
    cases h1 : attemptOk 1 <;>
      simp [sendMessage, MAX_RETRIES, hc, h0, hr, h1, isAttemptEvent, isRecoveryEvent,
        List.countP_cons]

/-! ## C9 — batched message caps itemized entries at 20 with an overflow count -/

/-- C9: for a non-empty pending list the formatter itemizes exactly
`min 20 n` entries (never more than the cap of 20), and when the list is
longer than the cap the remaining notifications are summarized as the
count `n - 20` in the overflow line of the message. -/
theorem formatPersonalizedMessage_caps (data : List Item) (_hne : data ≠ []) :
    (itemizedEntries data).length = min 20 data.length ∧
    (itemizedEntries data).length ≤ 20 ∧
    (data.length > 20 →
      overflowSummary data =
        "... y " ++ toString (data.length - 20) ++ " notificaciones adicionales.\n\n") ∧
    (data.length ≤ 20 → overflowSummary data = "") := by
  refine ⟨?_, ?_, ?_, ?_⟩
  · simp [itemizedEntries, List.enum_length, List.length_take]
  · simp only [itemizedEntries, List.length_map, List.enum_length, List.length_take]
    omega
  · intro h
    unfold overflowSummary
    rw [if_pos h]
  · intro h
    unfold overflowSummary
    rw [if_neg (by omega)]

/-- Pending list longer than the cap, for the C9 witness. -/
def data21 : List Item := List.replicate 21 exItem0

/-- Witness for C9 on a 21-element pending list: 20 itemized entries and
an overflow line counting 1 leftover. -/
theorem formatPersonalizedMessage_caps_witness :
    (itemizedEntries data21).length = min 20 data21.length ∧
    overflowSummary data21 =
      "... y " ++ toString (data21.length - 20) ++ " notificaciones adicionales.\n\n" :=
  ⟨(formatPersonalizedMessage_caps data21 (by decide)).1,
   (formatPersonalizedMessage_caps data21 (by decide)).2.2.1 (by decide)⟩

/-! ## C3 — markDelivered only after a successful send -/

/-- C3: within one recipient's delivery step, `markUserAsNotified` is
invoked only after the send of the message containing the notifications
succeeded: on a failed send the store is unchanged and no mark event is
emitted; every mark event in the trace belongs to this recipient, is for
a notification included in the message, and is preceded by the
successful primary-send event that heads the trace. -/
theorem mark_only_after_send (store : Store) (sendOk : String → Bool)
    (userPhone nowStr ts date : String) :
    (sendOk userPhone = false →
      (sendPersonalizedNotifications store sendOk userPhone nowStr ts date).1 = store ∧
      ∀ e ∈ (sendPersonalizedNotifications store sendOk userPhone nowStr ts date).2.2,
        ∀ exp noti u, e ≠ Event.mark exp noti u) ∧
    (∀ exp noti u,
      Event.mark exp noti u ∈
          (sendPersonalizedNotifications store sendOk userPhone nowStr ts date).2.2 →
      sendOk userPhone = true ∧ u = userPhone ∧
      (sendPersonalizedNotifications store sendOk userPhone nowStr ts date).2.2.head? =
        some (Event.primarySend userPhone
          (formatPersonalizedMessage (getTodaysNotificationsForUser store userPhone date)
            nowStr userPhone) true) ∧
      ∃ n ∈ getTodaysNotificationsForUser store userPhone date,
        exp = n.numeroExpediente ∧ noti = n.numeroNotificacion) := by
  unfold sendPersonalizedNotifications
  by_cases hemp : (getTodaysNotificationsForUser store userPhone date).isEmpty
  · rw [if_pos hemp]
    exact ⟨fun _ => ⟨rfl, by simp⟩, by simp⟩
  · rw [if_neg hemp]
    by_cases hsend : sendOk userPhone = true
    · rw [if_pos hsend]
      constructor
      · intro hfalse
        rw [hfalse] at hsend
        cases hsend
      · intro exp noti u hmem
        simp only [List.mem_cons] at hmem
        rcases hmem with h | h
        · cases h
        · obtain ⟨n, hn, heq⟩ := List.mem_map.mp h
          injection heq.symm with he1 he2 he3
          exact ⟨hsend, he3, rfl, n, hn, he1, he2⟩
    · rw [if_neg hsend]
      refine ⟨fun _ => ⟨rfl, ?_⟩, ?_⟩
      · intro e he exp noti u
        simp only [List.mem_singleton] at he
        rw [he]
        intro h
        cases h
      · intro exp noti u hmem
        simp only [List.mem_singleton] at hmem
        cases hmem

/-- Witness for C3: with a primary channel that fails the send, the
store (the delivery ledger) is left unchanged. -/
theorem mark_only_after_send_witness :
    (sendPersonalizedNotifications [exItem0] (fun _ => false) "51900000001" "now" "t2"
        "2025-01-02").1 = [exItem0] :=
  ((mark_only_after_send [exItem0] (fun _ => false) "51900000001" "now" "t2"
      "2025-01-02").1 rfl).1

/-! ## C2 — redelivery on content change (version is reset, not incremented) -/

theorem concatHash_ne_empty (a b c d : String) :
    a ++ "-" ++ b ++ "-" ++ c ++ "-" ++ d ≠ "" := by
  intro h
  have hlen := congrArg String.length h
  have hdash : ("-" : String).length = 1 := rfl
  have hemp : ("" : String).length = 0 := rfl
  simp only [String.length_append, hdash, hemp] at hlen
  omega

theorem generateContentHash_ne_empty (n : Notification) : generateContentHash n ≠ "" :=
  concatHash_ne_empty n.estado n.sumilla n.oficinaJudicial n.fecha

/-- Incoming record with the same key as `exItem0`-family items but a
changed `sumilla`. -/
def exNotifNew : Notification :=
  { numeroExpediente := "00187-2025", numeroNotificacion := "43443-2025",
    estado := "ABIERTA", sumilla := "sumilla nueva", oficinaJudicial := "o",
    fecha := "2025-01-01" }

/-- Stored record at version 1 with one delivered recipient and a
well-formed content hash over its own fields. -/
def exItemDelivered : Item :=
  { exItem0 with
      sumilla := "sumilla vieja",
      version := some 1,
      envios := [{ user := "51900000001", enviado := true, fechaEnvio := "t1",
                   procesado := true }],
      hashContenido := "ABIERTA-sumilla vieja-o-2025-01-01" }

/-- C2 counterexample: a stored record at `version = some 1` processed
against an incoming record with the same key and a different content
hash ends with `deliveries = []` and `version = some 0` — the version is
reset to 0, **not** incremented relative to the stored value, refuting
the claim as stated (while `createdAt` is preserved). -/
theorem changeDetector_version_reset_counterexample :
    generateContentHash exNotifNew ≠ exItemDelivered.hashContenido ∧
    exItemDelivered.version = some 1 ∧
    (getNotification (saveNotification [exItemDelivered] true exNotifNew "t2" "2025-01-03"
          none).1 "00187-2025" "43443-2025").map
        (fun i => (i.envios, i.version, i.fechaCreacion))
      = some ([], some 0, "t0") := by decide

/-- C2 amended: when the stored record's content hash (well-formed over
its own tracked fields) differs from the incoming record's, processing
writes an update that preserves `createdAt` (`fechaCreacion`) and the
item's creation date, resets `deliveries` (`envios`) to `[]`, and resets
`version` to `0` — it does **not** increment the version. -/
theorem changeDetector_redelivery_on_change (store : Store) (n : Notification)
    (ts date : String) (src : Option String) (existing : Item)
    (hget : getNotification store n.numeroExpediente n.numeroNotificacion = some existing)
    (hwf : existing.hashContenido =
      existing.estado ++ "-" ++ existing.sumilla ++ "-" ++
        existing.oficinaJudicial ++ "-" ++ existing.fecha)
    (hdiff : generateContentHash n ≠ existing.hashContenido) :
    (saveNotification store true n ts date src).2 = ⟨true, false, none⟩ ∧
    getNotification (saveNotification store true n ts date src).1
        n.numeroExpediente n.numeroNotificacion =
      some { mkItem n ts date src with
               fechaCreacion := existing.fechaCreacion,
               fechaCreacionItem := existing.fechaCreacionItem,
               envios := [], version := some 0,
               ultimaActualizacion := ts } := by
  have hne : existing.hashContenido ≠ "" := by
    rw [hwf]
    exact concatHash_ne_empty _ _ _ _
  have hch : hasSignificantChanges existing (mkItem n ts date src) = true := by
    by_contra hfalse
    have hch' : hasSignificantChanges existing (mkItem n ts date src) = false :=
      eq_false_of_ne_true hfalse
    simp only [hasSignificantChanges, mkItem, Bool.or_eq_false_iff,
      bne_eq_false_iff_eq] at hch'
    obtain ⟨⟨⟨h1, h2⟩, h3⟩, h4⟩ := hch'
    apply hdiff
    rw [hwf, generateContentHash, h1, h2, h3, h4]
  have hhash : (existing.hashContenido != "" &&
      (mkItem n ts date src).hashContenido != "" &&
      existing.hashContenido != (mkItem n ts date src).hashContenido) = true := by
    have h1 : (existing.hashContenido != "") = true := bne_iff_ne.mpr hne
    have h2 : ((mkItem n ts date src).hashContenido != "") = true :=
      bne_iff_ne.mpr (generateContentHash_ne_empty n)
    have h3 : (existing.hashContenido != (mkItem n ts date src).hashContenido) = true :=
      bne_iff_ne.mpr (fun h => hdiff h.symm)
    rw [h1, h2, h3]
    rfl
  unfold saveNotification
  simp only [hget, hch, if_true, hhash, Bool.and_self]
  constructor
  · trivial
  · simpa using getNotification_putItem_self store
      { mkItem n ts date src with
          fechaCreacion := existing.fechaCreacion,
          fechaCreacionItem := existing.fechaCreacionItem,
          envios := [], version := some 0,
          ultimaActualizacion := ts }

/-- Witness for the amended C2 at the concrete stored record at
version 1 with a delivered recipient. -/
theorem changeDetector_redelivery_on_change_witness :
    (saveNotification [exItemDelivered] true exNotifNew "t2" "2025-01-03" none).2
        = ⟨true, false, none⟩ :=
  (changeDetector_redelivery_on_change [exItemDelivered] exNotifNew "t2" "2025-01-03" none
    exItemDelivered (by decide) (by decide) (by decide)).1

/-! ## C5 — the unsent query versus the spec's wording -/

/-- With at most one entry for the recipient, checking the first
matching entry (`find?`, as the code does) agrees with checking for the
absence of any delivered entry (as the spec words it). -/
theorem find?_vs_any (envios : List Envio) (u : String)
    (h : envios.countP (fun e => e.user == u) ≤ 1) :
    (match envios.find? (fun e => e.user == u) with
     | none => true
     | some userEnvio => !userEnvio.enviado)
      = !(envios.any (fun e => e.user == u && e.enviado)) := by
  induction envios with
  | nil => simp
  | cons a rest ih =>
      by_cases ha : (a.user == u) = true
      · rw [List.find?_cons_of_pos (p := fun e => e.user == u) rest ha]
        simp only [List.any_cons, ha, Bool.true_and]
        have hrest : rest.countP (fun e => e.user == u) = 0 := by
          simp only [List.countP_cons, ha, if_true] at h
          omega
        have hany : rest.any (fun e => e.user == u && e.enviado) = false := by
          rw [List.any_eq_false]
          intro x hx hpx
          have hxu : (x.user == u) = true := by
            simp only [Bool.and_eq_true] at hpx
            exact hpx.1
          have := List.countP_eq_zero.mp hrest x hx
          exact this hxu
        rw [hany]
        simp
      · rw [List.find?_cons_of_neg (p := fun e => e.user == u) rest ha]
        simp only [List.any_cons, ha, Bool.false_eq_true, Bool.false_and, Bool.false_or]
        apply ih
        simp only [List.countP_cons, ha, Bool.false_eq_true, if_false] at h
        omega

/-- C5 counterexample: on a store whose record carries two entries for
the same recipient (first not delivered, second delivered) — contents
the data-model invariant excludes but the claim's "any store contents"
quantifies over — the code's first-match check returns the record even
though its `deliveries` list *does* contain an entry for the recipient
with `delivered = true`, so the query does not return "exactly" the
records the claim describes. -/
theorem unsent_query_counterexample :
    ({ exItem0 with envios :=
        [{ user := "51900000001", enviado := false, fechaEnvio := "", procesado := false },
         { user := "51900000001", enviado := true, fechaEnvio := "t1", procesado := true }]
       : Item}.envios.any (fun e => e.user == "51900000001" && e.enviado)) = true ∧
    getTodaysNotificationsForUser
        [{ exItem0 with envios :=
            [{ user := "51900000001", enviado := false, fechaEnvio := "",
               procesado := false },
             { user := "51900000001", enviado := true, fechaEnvio := "t1",
               procesado := true }] }] "51900000001" "2025-01-02"
      = [{ exItem0 with envios :=
            [{ user := "51900000001", enviado := false, fechaEnvio := "",
               procesado := false },
             { user := "51900000001", enviado := true, fechaEnvio := "t1",
               procesado := true }] }] ∧
    unsentForSpec
        [{ exItem0 with envios :=
            [{ user := "51900000001", enviado := false, fechaEnvio := "",
               procesado := false },
             { user := "51900000001", enviado := true, fechaEnvio := "t1",
               procesado := true }] }] "51900000001" "2025-01-02" = [] := by decide

/-- C5 amended: over store contents whose records hold at most one
`deliveries` entry per recipient (the data-model invariant), the unsent
query returns exactly the records created on the date whose `deliveries`
list has no entry for the recipient with `delivered = true` — the
spec-worded query.  The query is a pure function of the store (it is
recomputed from the store contents on every call), so re-running it on
an unchanged store — e.g. after a crash in which no `markDelivered` was
persisted — returns the same records. -/
theorem unsent_query_matches_spec (store : Store) (userPhone currentDate : String)
    (hinv : ∀ i ∈ store, (i.envios.countP (fun e => e.user == userPhone)) ≤ 1) :
    getTodaysNotificationsForUser store userPhone currentDate =
      unsentForSpec store userPhone currentDate := by
  unfold getTodaysNotificationsForUser unsentForSpec
  rw [List.filter_filter]
  apply List.filter_congr
  intro i hi
  rw [find?_vs_any i.envios userPhone (hinv i hi), Bool.and_comm]

/-- Witness for the amended C5 on a store satisfying the invariant. -/
theorem unsent_query_matches_spec_witness :
    getTodaysNotificationsForUser [exItem1] "51900000001" "2025-01-02" =
      unsentForSpec [exItem1] "51900000001" "2025-01-02" :=
  unsent_query_matches_spec [exItem1] "51900000001" "2025-01-02" (by decide)

/-! ## C1 — fallback escalation does not update the delivery ledger -/

def waCfg0 : WhatsAppConfig :=
  { enabled := true, sendOnSuccess := true, notificationPhone := some "51900000001" }

def emailCfg0 : EmailConfig :=
  { enabled := true, clientEmail := some "cliente@example.com", emailClient := none }

/-- The incoming record matching `exItem0`. -/
def exNotifOld : Notification :=
  { numeroExpediente := "00187-2025", numeroNotificacion := "43443-2025",
    estado := "ABIERTA", sumilla := "s", oficinaJudicial := "o", fecha := "2025-01-01" }

/-- C1 counterexample: one recipient with one pending notification, a
primary channel that always fails, a fallback email channel that
succeeds.  The run escalates and reports success, and exactly one
successful fallback send happens — but the store is unchanged:
`markDelivered` was never invoked and the notification is still pending,
whereas the primary-success path leaves nothing pending.  This refutes
"on fallback success the delivery ledger is updated via `markDelivered`
… exactly as on the primary-channel success path". -/
theorem fallback_no_mark_counterexample :
    (ethicalSendNotifications waCfg0 emailCfg0 [] [exItem0] (fun _ => false) (fun _ => true)
        (some [exNotifOld]) "now" "t2" "2025-01-02").success = true ∧
    (ethicalSendNotifications waCfg0 emailCfg0 [] [exItem0] (fun _ => false) (fun _ => true)
        (some [exNotifOld]) "now" "t2" "2025-01-02").events.countP
        (fun e => match e with
                  | Event.fallbackSend _ _ _ ok => ok
                  | _ => false) = 1 ∧
    (ethicalSendNotifications waCfg0 emailCfg0 [] [exItem0] (fun _ => false) (fun _ => true)
        (some [exNotifOld]) "now" "t2" "2025-01-02").store = [exItem0] ∧
    (getTodaysNotificationsForUser [exItem0] "51900000001" "2025-01-02").length = 1 ∧
    (getTodaysNotificationsForUser
        (ethicalSendNotifications waCfg0 emailCfg0 [] [exItem0] (fun _ => false)
          (fun _ => true) (some [exNotifOld]) "now" "t2" "2025-01-02").store
        "51900000001" "2025-01-02").length = 1 ∧
    (getTodaysNotificationsForUser
        (ethicalSendNotifications waCfg0 emailCfg0 [] [exItem0] (fun _ => true)
          (fun _ => true) (some [exNotifOld]) "now" "t2" "2025-01-02").store
        "51900000001" "2025-01-02").length = 0 := by decide

/-- The fallback phase emits only `fallbackSend` events, one per email
recipient, all carrying the email rendering of the extracted list. -/
theorem sendEmailNotifications_events_shape (emailCfg : EmailConfig)
    (recips : List Recipient) (emailOk : String → Bool)
    (notifs : List Notification) (nowStr : String) :
    ∃ dests : List String,
      (sendEmailNotifications emailCfg recips emailOk notifs nowStr).2 =
        dests.map (fun r => Event.fallbackSend r
          ("🏛️ SINOE - " ++ toString notifs.length ++ " Notificaciones: " ++
            toString (notifs.filter (fun n => n.estado != "CERRADA")).length ++
            " Abiertas, " ++
            toString (notifs.filter (fun n => n.estado == "CERRADA")).length ++ " Cerradas")
          (formatEmailNotifications notifs nowStr) (emailOk r)) := by
  unfold sendEmailNotifications
  by_cases h1 : (!emailCfg.enabled) = true
  · rw [if_pos h1]
    exact ⟨[], rfl⟩
  · rw [if_neg h1]
    by_cases h2 : notifs.isEmpty = true
    · rw [if_pos h2]
      exact ⟨[], rfl⟩
    · rw [if_neg h2]
      simp only
      split
      · split
        · exact ⟨[], rfl⟩
        · exact ⟨(match jsOr emailCfg.clientEmail emailCfg.emailClient with
                  | some e => [e]
                  | none => []), by rw [List.map_map]; rfl⟩
      · exact ⟨recips.filterMap (fun r =>
            match r.email with
            | some e => if (e != "" && r.receiveNotifications) = true then some e else none
            | none => none), by rw [List.map_map]; rfl⟩

/-- C1 amended: escalation to the fallback channel happens only when the
WhatsApp summary reports failure for the whole cycle (no recipient was
sent anything); the fallback emails carry the email-specific rendering
of the raw extracted notification list, and the fallback phase never
touches the record store — `markDelivered` is not invoked on fallback
success, so `deliveries` is *not* updated as on the primary-success path
and the notifications remain pending for the next cycle. -/
theorem fallback_escalation_no_mark (waCfg : WhatsAppConfig) (emailCfg : EmailConfig)
    (recips : List Recipient) (store : Store) (sendOk emailOk : String → Bool)
    (notifs : List Notification) (nowStr ts date : String)
    (hen : waCfg.enabled = true) (hsos : waCfg.sendOnSuccess = true)
    (hfail : (sendNotificationsSummary waCfg recips store sendOk nowStr ts date).2.1
      = false) :
    (ethicalSendNotifications waCfg emailCfg recips store sendOk emailOk (some notifs)
        nowStr ts date).store =
      (sendNotificationsSummary waCfg recips store sendOk nowStr ts date).1 ∧
    (ethicalSendNotifications waCfg emailCfg recips store sendOk emailOk (some notifs)
        nowStr ts date).success =
      (sendEmailNotifications emailCfg recips emailOk notifs nowStr).1 ∧
    (ethicalSendNotifications waCfg emailCfg recips store sendOk emailOk (some notifs)
        nowStr ts date).events =
      (sendNotificationsSummary waCfg recips store sendOk nowStr ts date).2.2 ++
        (sendEmailNotifications emailCfg recips emailOk notifs nowStr).2 ∧
    (∀ e ∈ (sendEmailNotifications emailCfg recips emailOk notifs nowStr).2,
       ∃ dest subj ok,
         e = Event.fallbackSend dest subj (formatEmailNotifications notifs nowStr) ok) := by
  have hmain : ethicalSendNotifications waCfg emailCfg recips store sendOk emailOk
      (some notifs) nowStr ts date =
      ⟨(sendNotificationsSummary waCfg recips store sendOk nowStr ts date).1,
       (sendEmailNotifications emailCfg recips emailOk notifs nowStr).1,
       (sendNotificationsSummary waCfg recips store sendOk nowStr ts date).2.2 ++
         (sendEmailNotifications emailCfg recips emailOk notifs nowStr).2⟩ := by
    unfold ethicalSendNotifications
    rw [hen, hsos]
    simp only [Bool.and_self, Bool.not_true, Bool.false_eq_true, if_false]
    rw [if_neg (by rw [hfail]; exact Bool.false_ne_true)]
  refine ⟨by rw [hmain], by rw [hmain], by rw [hmain], ?_⟩
  intro e he
  obtain ⟨dests, hd⟩ :=
    sendEmailNotifications_events_shape emailCfg recips emailOk notifs nowStr
  rw [hd] at he
  obtain ⟨r, hr, hpe⟩ := List.mem_map.mp he
  exact ⟨r, _, emailOk r, hpe.symm⟩

/-- Witness for the amended C1: with every primary send failing, the
final store is exactly the store the failed WhatsApp phase left. -/
theorem fallback_escalation_no_mark_witness :
    (ethicalSendNotifications waCfg0 emailCfg0 [] [exItem0] (fun _ => false)
        (fun _ => false) (some [exNotifOld]) "now" "t2" "2025-01-02").store =
      (sendNotificationsSummary waCfg0 [] [exItem0] (fun _ => false) "now" "t2"
        "2025-01-02").1 :=
  (fallback_escalation_no_mark waCfg0 emailCfg0 [] [exItem0] (fun _ => false)
    (fun _ => false) [exNotifOld] "now" "t2" "2025-01-02" rfl rfl (by decide)).1

end Sinoe
